import Mathlib

/-!
Verification of the document mutation planner of the weekly-update report script
(src/script.py).  The Python string operations the script relies on
(`str.strip`, `str.splitlines`, `re.search` with a lazy group) are embedded as
executable Lean functions over `String`/`List Char`, the two append planners are
embedded as pure batch builders, and the table read-back is embedded with
`Except` standing for the Python exceptions.
-/

/-- The character set removed by Python's argument-less `str.strip` (Unicode
whitespace as recognised by `str.isspace`). -/
def pyIsSpace (c : Char) : Bool :=
  c = ' ' || c = '\t' || c = '\n' || c = '\r' || c = '\x0b' || c = '\x0c' ||
  c = '\x1c' || c = '\x1d' || c = '\x1e' || c = '\x1f' || c = '\x85' || c = '\xa0' ||
  c = ' ' || (' ' ≤ c && c ≤ ' ') || c = ' ' || c = ' ' ||
  c = ' ' || c = ' ' || c = '　'

/-- Python `str.strip(chars)`: remove characters satisfying `p` from both ends. -/
def stripBoth (p : Char → Bool) (s : String) : String :=
  String.mk (List.rdropWhile p (List.dropWhile p s.data))

/-- Python `str.strip()` with no argument. -/
def pyStrip (s : String) : String := stripBoth pyIsSpace s

/-- The literal character set of the `strip("-‚Ä¢ ")` calls at
src/script.py:229 and :287: hyphen, U+201A, U+00C4, U+00A2 and space (the file
stores the bullet marker as those three mojibake characters). -/
def isMarkerChar (c : Char) : Bool :=
  c = '-' || c = '‚' || c = 'Ä' || c = '¢' || c = ' '

/-- The line-boundary characters recognised by Python `str.splitlines`. -/
def pyIsLineBreak (c : Char) : Bool :=
  c = '\n' || c = '\r' || c = '\x0b' || c = '\x0c' || c = '\x1c' || c = '\x1d' ||
  c = '\x1e' || c = '\x85' || c = ' ' || c = ' '

/-- Worker for `pySplitlines`; `cur` holds the reversed characters of the line
being accumulated.  A `"\r\n"` pair counts as a single boundary, a boundary at
the end of the input does not open a final empty line. -/
def pySplitlinesGo : List Char → List Char → List String
  | [], cur => if cur.isEmpty then [] else [String.mk cur.reverse]
  | c :: rest, cur =>
    if pyIsLineBreak c then
      String.mk cur.reverse ::
        (match rest with
         | r2 :: rest2 =>
           if c == '\r' && r2 == '\n' then pySplitlinesGo rest2 []
           else pySplitlinesGo (r2 :: rest2) []
         | [] => pySplitlinesGo [] [])
    else pySplitlinesGo rest (c :: cur)

/-- Python `str.splitlines()`. -/
def pySplitlines (s : String) : List String := pySplitlinesGo s.data []

/-- One step of the normalizer comprehension at src/script.py:229 and :287:
`line.strip("-‚Ä¢ ").strip()`. -/
def cleanLine (l : String) : String := pyStrip (stripBoth isMarkerChar l)

/-- The comprehension filter `if line.strip()` (Python truthiness of the
stripped line). -/
def lineKept (l : String) : Bool := pyStrip l != ""

/-- The line normalizer of src/script.py:228-232 (identical at :286-290):
split the raw slot text into lines, keep the non-blank ones, and clean each
kept line. -/
def bulletLines (data : String) : List String :=
  ((pySplitlines data).filter lineKept).map cleanLine

/-- First `some` value of `f` on `i, i+1, ...` within `fuel` steps; this is the
left-to-right scan a regex search performs over candidate start positions. -/
def scanFirstSome {α : Type} (f : Nat → Option α) : Nat → Nat → Option α
  | _, 0 => none
  | i, fuel + 1 =>
    match f i with
    | some a => some a
    | none => scanFirstSome f (i + 1) fuel

/-- `needle` occurs in `hay` at character position `i`. -/
def occursAt (needle hay : String) (i : Nat) : Bool :=
  List.isPrefixOf needle.data (hay.data.drop i)

/-- Smallest position `j ≥ start` at which `needle` occurs in `hay`. -/
def findFrom (needle hay : String) (start : Nat) : Option Nat :=
  scanFirstSome (fun j => if occursAt needle hay j then some j else none)
    start (hay.length + 1 - start)

/-- The characters of `s` from position `a` (inclusive) to `b` (exclusive). -/
def sliceStr (s : String) (a b : Nat) : String :=
  String.mk ((s.data.drop a).take (b - a))

/-- `re.search(open + "(.*?)" + close, s, re.DOTALL)` restricted group:
leftmost start position where `openT` occurs with some occurrence of `closeT`
after it; the lazy group runs to the first such `closeT`. -/
def reSearchLazy (openT closeT s : String) : Option String :=
  scanFirstSome
    (fun i =>
      if occursAt openT s i then
        match findFrom closeT s (i + openT.length) with
        | some j => some (sliceStr s (i + openT.length) j)
        | none => none
      else none)
    0 (s.length + 1)

/-- The opening delimiter `<tag>` of the pattern at src/script.py:163. -/
def openTagOf (tag : String) : String := "<" ++ tag ++ ">"

/-- The closing delimiter `</tag>` of the pattern at src/script.py:163. -/
def closeTagOf (tag : String) : String := "</" ++ tag ++ ">"

/-- The `extract` closure of src/script.py:162-165: search for
`<tag>(.*?)</tag>` with DOTALL and return the stripped first group, or `""`
when there is no match. -/
def extractTag (tag response : String) : String :=
  match reSearchLazy (openTagOf tag) (closeTagOf tag) response with
  | some g => pyStrip g
  | none => ""

/-- The dictionary returned by `parse_structured_response`
(src/script.py:151-171): exactly the three keys `completed`, `inprogress`,
`new`. -/
structure ParsedInfo where
  completed : String
  inprogress : String
  new : String
deriving Repr, DecidableEq

/-- src/script.py:151-171. -/
def parse_structured_response (response : String) : ParsedInfo :=
  { completed := extractTag ("completed") response
    inprogress := extractTag ("inprogress") response
    new := extractTag ("new") response }

example : bulletLines ("-‚Ä¢ fix login bug") = ["fix login bug"] := by decide
example : bulletLines ("a-") = ["a"] := by decide
example : bulletLines ("-") = [""] := by decide
example : bulletLines ("") = [] := by decide
example : pySplitlines ("a\r\nb") = ["a", "b"] := by decide
example : extractTag ("completed") ("<completed> x\ny </completed>") = "x\ny" := by decide
example : extractTag ("new") ("nope") = "" := by decide
example : extractTag ("t") ("<t>a<t>b</t>c</t>") = "a<t>b" := by decide

/-- The request kinds of the Google-Docs `batchUpdate` batches the script
builds (the style payloads of `updateTextStyle` and the bullet preset of
`createParagraphBullets` are compile-time constants in the script and carry no
information, so only the positional fields are modelled). -/
inductive DocRequest where
  | insertPageBreak (index : Nat)
  | insertText (index : Nat) (text : String)
  | updateTextStyle (startIndex endIndex : Nat)
  | createParagraphBullets (startIndex endIndex : Nat)
  | insertTable (rows columns index : Nat)
deriving Repr, DecidableEq

/-- src/script.py:188 and :311. -/
def date_heading : String := "Weekly Status Report\n"

/-- src/script.py:189-193. -/
def section_titles : List String :=
  ["1. Tasks completed 100%:", "2. Tasks continue to work on:", "3. New tasks started:"]

/-- `"\n".join(bullet_lines) + "\n"` (src/script.py:233). -/
def bulletText (data : String) : String :=
  String.intercalate "\n" (bulletLines data) ++ "\n"

/-- `"\n".join(bullet_lines)` without the terminating newline, for stating the
cursor arithmetic. -/
def joinedLines (data : String) : String :=
  String.intercalate "\n" (bulletLines data)

/-- Body of the section loop at src/script.py:227-263: append the title
insert, the bullet-text insert and the bullet-marking request, and advance the
cursor. -/
def sectionStep : List DocRequest × Nat → String × String → List DocRequest × Nat
  | (reqs, cursor), (title, data) =>
    let bullet_text := bulletText data
    let title_text := title ++ "\n"
    let c1 := cursor + title_text.length
    (reqs ++ [DocRequest.insertText cursor title_text,
              DocRequest.insertText c1 bullet_text,
              DocRequest.createParagraphBullets c1 (c1 + bullet_text.length)],
     c1 + bullet_text.length)

/-- The batch built by `append_bullet_summary_to_doc` (src/script.py:200-263),
generalised over the heading text and the (title, raw slot text) section
pairs exactly as the loop consumes them; the second component is the final
cursor. -/
def appendBulletPlan (end_index : Nat) (heading : String)
    (sections : List (String × String)) : List DocRequest × Nat :=
  List.foldl sectionStep
    ([DocRequest.insertPageBreak (end_index - 1),
      DocRequest.insertText end_index heading,
      DocRequest.updateTextStyle end_index (end_index + heading.length)],
     end_index + heading.length)
    sections

/-- src/script.py:174-267 with the script's literal heading and section
titles. -/
def append_bullet_summary_to_doc (end_index : Nat) (parsed : ParsedInfo) :
    List DocRequest × Nat :=
  appendBulletPlan end_index date_heading
    (section_titles.zip [parsed.completed, parsed.inprogress, parsed.new])

/-- src/script.py:285-298; the emoji literals are the (mojibake) characters
stored in the file. -/
def format_bullet_text (text tag : String) : String :=
  let lines := bulletLines text
  let bullet : String :=
    if tag = "completed" then "‚úÖ"
    else if tag = "inprogress" then "‚è≥"
    else if tag = "new" then "üÜï"
    else ""
  if lines.isEmpty then ""
  else String.intercalate "\n" (lines.map (fun l => bullet ++ " " ++ l))

/-- src/script.py:300-308. -/
def table_rows (period_from period_to : String) (parsed : ParsedInfo) :
    List String :=
  ["Period from " ++ period_from ++ " to " ++ period_to,
   "1. Tasks completed 100%:\n" ++ format_bullet_text parsed.completed ("completed"),
   "2. Tasks continue to work on:\n" ++ format_bullet_text parsed.inprogress ("inprogress"),
   "3. New tasks started:\n" ++ format_bullet_text parsed.new ("new")]

/-- Phase-1 structural batch of the table planner (src/script.py:310-339). -/
def phase1Requests (end_index : Nat) (rowTexts : List String) : List DocRequest :=
  [DocRequest.insertPageBreak (end_index - 1),
   DocRequest.insertText end_index date_heading,
   DocRequest.updateTextStyle end_index (end_index + date_heading.length),
   DocRequest.insertTable rowTexts.length 1 (end_index + date_heading.length)]

/-- One element of the first paragraph of a read-back table cell
(`...["elements"][0]` carries a `startIndex`). -/
structure ParaElement where
  startIndex : Nat
deriving Repr, DecidableEq

/-- The `"paragraph"` value of a cell content element. -/
structure Paragraph where
  elements : List ParaElement
deriving Repr, DecidableEq

/-- One entry of a cell's `"content"` list; the `"paragraph"` key may be
absent. -/
structure CellContentElem where
  paragraph : Option Paragraph
deriving Repr, DecidableEq

structure TableCell where
  content : List CellContentElem
deriving Repr, DecidableEq

structure TableRow where
  tableCells : List TableCell
deriving Repr, DecidableEq

structure DocTable where
  tableRows : List TableRow
deriving Repr, DecidableEq

/-- One element of the read-back document body; the `"table"` key may be
absent. -/
structure BodyElement where
  table : Option DocTable
deriving Repr, DecidableEq

/-- The per-row read-back expression of src/script.py:352-357,
`row["tableCells"][0]["content"][0]["paragraph"]["elements"][0]["startIndex"]`;
where Python raises an `IndexError`/`KeyError` this returns `Except.error`. -/
def rowCellIndex (row : TableRow) : Except String Nat :=
  match row.tableCells with
  | [] => Except.error "IndexError: tableCells[0]"
  | cell :: _ =>
    match cell.content with
    | [] => Except.error "IndexError: content[0]"
    | ce :: _ =>
      match ce.paragraph with
      | none => Except.error "KeyError: paragraph"
      | some p =>
        match p.elements with
        | [] => Except.error "IndexError: elements[0]"
        | e :: _ => Except.ok e.startIndex

/-- The `cell_indexes` comprehension over all table rows
(src/script.py:352-357); Python raises at the first malformed row. -/
def cellIndexes (t : DocTable) : Except String (List Nat) :=
  t.tableRows.mapM rowCellIndex

/-- src/script.py:347-350: keep the elements that have a table, take the last
one, raise `ValueError` when there is none. -/
def lastTable (content : List BodyElement) : Except String DocTable :=
  match (content.filterMap (fun e => e.table)).getLast? with
  | some t => Except.ok t
  | none => Except.error "ValueError: Table not found in document."

/-- src/script.py:359-363: one `insertText` per (row text, cell index) pair,
iterated over `reversed(list(zip(table_rows, cell_indexes)))`. -/
def phase2TextRequests (rowTexts : List String) (cellIdxs : List Nat) :
    List DocRequest :=
  ((rowTexts.zip cellIdxs).reverse).map (fun p => DocRequest.insertText p.2 p.1)

/-- Read-back plus Phase-2 batch construction (src/script.py:345-367): any
layout error aborts before a content batch exists, so the content batch is
produced whole or not at all. -/
def tablePhase2 (content : List BodyElement) (rowTexts : List String) :
    Except String (List DocRequest) := do
  let t ← lastTable content
  let idxs ← cellIndexes t
  return phase2TextRequests rowTexts idxs

/-- Modelled from the spec (§3 DocumentPosition, §4.4 correctness invariant;
the remote document service is an external collaborator, not part of the
source): applying `InsertText` at position `p` shifts every offset at or after
`p` by the text length and leaves strictly lower offsets untouched. -/
def shiftIns (p len q : Nat) : Nat := if p ≤ q then q + len else q

/-- Modelled from the spec: the cumulative effect of applying a batch of
operations in list order on the tracked position of snapshot offset `q`
(only `insertText` moves offsets among the operations a Phase-2 batch
contains). -/
def applyInserts : List DocRequest → Nat → Nat
  | [], q => q
  | DocRequest.insertText p t :: rest, q => applyInserts rest (shiftIns p t.length q)
  | _ :: rest, q => applyInserts rest q

example :
    phase2TextRequests ["r0", "r1", "r2", "r3"] [50, 80, 130, 131] =
      [DocRequest.insertText 131 "r3", DocRequest.insertText 130 "r2",
       DocRequest.insertText 80 "r1", DocRequest.insertText 50 "r0"] := by decide
example : (append_bullet_summary_to_doc 100
    { completed := "-‚Ä¢ fix login bug", inprogress := "-‚Ä¢ refactor cache", new := "" }).2
    = 228 := by decide
example : format_bullet_text "" ("completed") = "" := by decide
example : bulletText "" = "\n" := by decide

lemma data_stripBoth (p : Char → Bool) (s : String) :
    (stripBoth p s).data = List.rdropWhile p (List.dropWhile p s.data) := rfl

lemma dropWhile_data_stripBoth (p : Char → Bool) (s : String) :
    List.dropWhile p (stripBoth p s).data = (stripBoth p s).data := by
  rw [data_stripBoth]
  obtain ⟨t, ht⟩ := List.rdropWhile_prefix p (List.dropWhile p s.data)
  cases hv : List.rdropWhile p (List.dropWhile p s.data) with
  | nil => simp
  | cons a v' =>
    have hu : List.dropWhile p s.data = a :: (v' ++ t) := by
      rw [← ht, hv]; simp
    have hself : List.dropWhile p (List.dropWhile p s.data) = List.dropWhile p s.data :=
      List.dropWhile_idempotent p s.data
    by_cases hp : p a = true
    · exfalso
      rw [hu, List.dropWhile_cons, if_pos hp] at hself
      have hle : (List.dropWhile p (v' ++ t)).length ≤ (v' ++ t).length :=
        (List.dropWhile_sublist p).length_le
      rw [hself] at hle
      simp at hle
    · rw [List.dropWhile_cons, if_neg hp]

lemma stripBoth_idem (p : Char → Bool) (s : String) :
    stripBoth p (stripBoth p s) = stripBoth p s := by
  have h1 : (stripBoth p (stripBoth p s)).data = (stripBoth p s).data := by
    rw [data_stripBoth, dropWhile_data_stripBoth, data_stripBoth,
      List.rdropWhile_idempotent]
  exact String.ext h1

lemma pyStrip_idem (s : String) : pyStrip (pyStrip s) = pyStrip s :=
  stripBoth_idem pyIsSpace s

lemma scanFirstSome_none {α : Type} (f : Nat → Option α) :
    ∀ (fuel i : Nat), (∀ k, i ≤ k → k < i + fuel → f k = none) →
      scanFirstSome f i fuel = none := by
  intro fuel
  induction fuel with
  | zero => intro i _; rfl
  | succ n ih =>
    intro i h
    have hi : f i = none := h i (Nat.le_refl i) (by omega)
    simp only [scanFirstSome, hi]
    exact ih (i + 1) (fun k hk1 hk2 => h k (by omega) (by omega))

lemma scanFirstSome_eq {α : Type} (f : Nat → Option α) :
    ∀ (fuel i j : Nat) (a : α), i ≤ j → j < i + fuel →
      (∀ k, i ≤ k → k < j → f k = none) → f j = some a →
      scanFirstSome f i fuel = some a := by
  intro fuel
  induction fuel with
  | zero => intro i j a h1 h2 _ _; omega
  | succ n ih =>
    intro i j a hij hlt hnone hj
    by_cases hi : i = j
    · subst hi
      simp only [scanFirstSome, hj]
    · have hstep : f i = none := hnone i (Nat.le_refl i) (by omega)
      simp only [scanFirstSome, hstep]
      exact ih (i + 1) j a (by omega) (by omega)
        (fun k hk1 hk2 => hnone k (by omega) hk2) hj

lemma intercalate_go_append (s : String) :
    ∀ (as : List String) (x y : String),
      String.intercalate.go (x ++ y) s as = x ++ String.intercalate.go y s as := by
  intro as
  induction as with
  | nil => intro x y; rfl
  | cons a as ih =>
    intro x y
    show String.intercalate.go (x ++ y ++ s ++ a) s as =
      x ++ String.intercalate.go (y ++ s ++ a) s as
    rw [String.append_assoc x y s, String.append_assoc x (y ++ s) a]
    exact ih x (y ++ s ++ a)

lemma intercalate_cons_cons (s a b : String) (as : List String) :
    String.intercalate s (a :: b :: as) = a ++ s ++ String.intercalate s (b :: as) := by
  exact intercalate_go_append s as (a ++ s) b

lemma intercalate_single (s a : String) : String.intercalate s [a] = a := rfl

/-- C1: Reverse-order application invariant — for locators `L0 < L1 < L2 < L3`
captured from one snapshot, applying the Phase-2 batch produced by the planner
(insertions at `L3`, `L2`, `L1`, `L0` in that order, src/script.py:359-367)
leaves the target offset of every not-yet-processed locator unchanged at the
moment it is used: after each prefix of the batch, every pending locator still
maps to itself under the spec's insertion-shift semantics. -/
theorem C1_reverse_order_invariant (L0 L1 L2 L3 : Nat) (T0 T1 T2 T3 : String)
    (h01 : L0 < L1) (h12 : L1 < L2) (h23 : L2 < L3) :
    applyInserts ((phase2TextRequests [T0, T1, T2, T3] [L0, L1, L2, L3]).take 1) L2 = L2 ∧
    applyInserts ((phase2TextRequests [T0, T1, T2, T3] [L0, L1, L2, L3]).take 1) L1 = L1 ∧
    applyInserts ((phase2TextRequests [T0, T1, T2, T3] [L0, L1, L2, L3]).take 1) L0 = L0 ∧
    applyInserts ((phase2TextRequests [T0, T1, T2, T3] [L0, L1, L2, L3]).take 2) L1 = L1 ∧
    applyInserts ((phase2TextRequests [T0, T1, T2, T3] [L0, L1, L2, L3]).take 2) L0 = L0 ∧
    applyInserts ((phase2TextRequests [T0, T1, T2, T3] [L0, L1, L2, L3]).take 3) L0 = L0 := by
  simp only [phase2TextRequests, List.zip_cons_cons, List.zip_nil_right,
    List.reverse_cons, List.reverse_nil, List.nil_append, List.cons_append,
    List.map_cons, List.map_nil, List.take, applyInserts, shiftIns]
  refine ⟨?_, ?_, ?_, ?_, ?_, ?_⟩ <;> split_ifs <;> omega

/-- Witness for C1 at concrete locators 1 < 2 < 3 < 4. -/
theorem C1_witness :
    applyInserts ((phase2TextRequests ["a", "b", "c", "d"] [1, 2, 3, 4]).take 3) 1 = 1 :=
  (C1_reverse_order_invariant 1 2 3 4 "a" "b" "c" "d"
    (by decide) (by decide) (by decide)).2.2.2.2.2

/-- C2: the Phase-2 content batch is exactly one InsertText per
(row text, locator) pair, emitted in reversed row order, which for
monotonically increasing read-back locators is descending locator order. -/
theorem C2_phase2_descending (r0 r1 r2 r3 : String) (l0 l1 l2 l3 : Nat)
    (h01 : l0 < l1) (h12 : l1 < l2) (h23 : l2 < l3) :
    phase2TextRequests [r0, r1, r2, r3] [l0, l1, l2, l3] =
      [DocRequest.insertText l3 r3, DocRequest.insertText l2 r2,
       DocRequest.insertText l1 r1, DocRequest.insertText l0 r0] ∧
    l3 > l2 ∧ l2 > l1 ∧ l1 > l0 := by
  refine ⟨?_, by omega, by omega, by omega⟩
  simp [phase2TextRequests]
  

/-- Witness for C2 at the spec's read-back locators [50, 80, 130, 131]. -/
theorem C2_witness :
    phase2TextRequests ["r0", "r1", "r2", "r3"] [50, 80, 130, 131] =
      [DocRequest.insertText 131 "r3", DocRequest.insertText 130 "r2",
       DocRequest.insertText 80 "r1", DocRequest.insertText 50 "r0"] :=
  (C2_phase2_descending "r0" "r1" "r2" "r3" 50 80 130 131
    (by decide) (by decide) (by decide)).1

/-- C4: the sequential batch is exactly twelve operations in order: page break
at `end_index - 1`, heading insert, heading style, then per section a title
insert, a bullet insert and a bullet-marking request (src/script.py:200-263). -/
theorem C4_sequential_batch_structure (ip : Nat) (parsed : ParsedInfo) :
    (append_bullet_summary_to_doc ip parsed).1 =
      [DocRequest.insertPageBreak (ip - 1),
       DocRequest.insertText ip date_heading,
       DocRequest.updateTextStyle ip (ip + 21),
       DocRequest.insertText (ip + 21) "1. Tasks completed 100%:\n",
       DocRequest.insertText (ip + 46) (bulletText parsed.completed),
       DocRequest.createParagraphBullets (ip + 46)
         (ip + 46 + (bulletText parsed.completed).length),
       DocRequest.insertText (ip + 46 + (bulletText parsed.completed).length)
         "2. Tasks continue to work on:\n",
       DocRequest.insertText (ip + 76 + (bulletText parsed.completed).length)
         (bulletText parsed.inprogress),
       DocRequest.createParagraphBullets (ip + 76 + (bulletText parsed.completed).length)
         (ip + 76 + (bulletText parsed.completed).length
            + (bulletText parsed.inprogress).length),
       DocRequest.insertText (ip + 76 + (bulletText parsed.completed).length
            + (bulletText parsed.inprogress).length)
         "3. New tasks started:\n",
       DocRequest.insertText (ip + 98 + (bulletText parsed.completed).length
            + (bulletText parsed.inprogress).length)
         (bulletText parsed.new),
       DocRequest.createParagraphBullets (ip + 98 + (bulletText parsed.completed).length
            + (bulletText parsed.inprogress).length)
         (ip + 98 + (bulletText parsed.completed).length
            + (bulletText parsed.inprogress).length + (bulletText parsed.new).length)] := by
  have h21 : date_heading.length = 21 := rfl
  have ht1 : ("1. Tasks completed 100%:" ++ "\n" : String) = "1. Tasks completed 100%:\n" := rfl
  have ht2 : ("2. Tasks continue to work on:" ++ "\n" : String)
      = "2. Tasks continue to work on:\n" := rfl
  have ht3 : ("3. New tasks started:" ++ "\n" : String) = "3. New tasks started:\n" := rfl
  have hl1 : ("1. Tasks completed 100%:\n" : String).length = 25 := rfl
  have hl2 : ("2. Tasks continue to work on:\n" : String).length = 30 := rfl
  have hl3 : ("3. New tasks started:\n" : String).length = 22 := rfl
  simp only [append_bullet_summary_to_doc, appendBulletPlan, section_titles,
    sectionStep, List.zip_cons_cons, List.zip_nil_right, List.foldl_cons,
    List.foldl_nil, h21, ht1, ht2, ht3, hl1, hl2, hl3, List.append_assoc,
    List.cons_append, List.nil_append]
  norm_num
  omega

/-- The offsets a request carries that claim C3 ranges over (insert locations,
style range bounds, bullet range bounds); the page-break location is the
deliberate `insertion_point - 1` convention and is not among them. -/
def offsetsOf : DocRequest → List Nat
  | DocRequest.insertPageBreak _ => []
  | DocRequest.insertText i _ => [i]
  | DocRequest.updateTextStyle s e => [s, e]
  | DocRequest.createParagraphBullets s e => [s, e]
  | DocRequest.insertTable _ _ i => [i]

/-- C3 (amended): the final cursor equals
`insertion_point + len(H) + Σ (len(title_i) + 1 + len(joined(B_i)) + 1)` —
each title is inserted with a terminating newline, hence the extra 1 per
section — and every insert location, style bound and bullet bound lies within
`[insertion_point, final cursor]`. -/
theorem C3_sequential_cursor (ip : Nat) (H t1 t2 t3 d1 d2 d3 : String) :
    (appendBulletPlan ip H [(t1, d1), (t2, d2), (t3, d3)]).2 =
      ip + H.length + (t1.length + 1 + ((joinedLines d1).length + 1))
        + (t2.length + 1 + ((joinedLines d2).length + 1))
        + (t3.length + 1 + ((joinedLines d3).length + 1)) ∧
    ∀ r ∈ (appendBulletPlan ip H [(t1, d1), (t2, d2), (t3, d3)]).1,
      ∀ q ∈ offsetsOf r,
        ip ≤ q ∧ q ≤ (appendBulletPlan ip H [(t1, d1), (t2, d2), (t3, d3)]).2 := by
  have hn1 : ("\n" : String).length = 1 := rfl
  have htl : ∀ t : String, (t ++ "\n").length = t.length + 1 := by
    intro t; simp [String.length_append, hn1]
  have hb : ∀ d : String, (bulletText d).length = (joinedLines d).length + 1 := by
    intro d; simp [bulletText, joinedLines, String.length_append, hn1]
  have hfin : (appendBulletPlan ip H [(t1, d1), (t2, d2), (t3, d3)]).2 =
      ip + H.length + (t1.length + 1 + ((joinedLines d1).length + 1))
        + (t2.length + 1 + ((joinedLines d2).length + 1))
        + (t3.length + 1 + ((joinedLines d3).length + 1)) := by
    simp only [appendBulletPlan, sectionStep, List.foldl_cons, List.foldl_nil,
      htl, hb]
    omega
  refine ⟨hfin, ?_⟩
  intro r hr q hq
  rw [hfin]
  simp only [appendBulletPlan, sectionStep, List.foldl_cons, List.foldl_nil,
    List.append_assoc, List.cons_append, List.nil_append, List.mem_cons,
    List.not_mem_nil, or_false, htl, hb] at hr
  rcases hr with rfl | rfl | rfl | rfl | rfl | rfl | rfl | rfl | rfl | rfl | rfl | rfl <;>
    simp only [offsetsOf, List.mem_cons, List.not_mem_nil, or_false] at hq <;>
    (rcases hq with rfl | rfl <;> omega)

/-- Witness for C3 (amended): a concrete in-range emitted offset. -/
theorem C3_sequential_cursor_witness :
    10 ≤ 11 ∧ 11 ≤ (appendBulletPlan 10 "H" [("t", "x"), ("u", "y"), ("v", "z")]).2 :=
  (C3_sequential_cursor 10 "H" "t" "u" "v" "x" "y" "z").2
    (DocRequest.insertText 11 ("t" ++ "\n")) (by decide) 11 (by decide)

/-- Counterexample to C3 as stated: at insertion point 10, heading `"H"` and
three sections with title `"t"` and empty texts, the final cursor is 20, but
the claim's formula `insertion_point + len(H) + Σ (len(title_i) +
len(joined(B_i)) + 1)` gives 17 — it misses the newline terminator appended to
each title. -/
theorem C3_counterexample :
    (appendBulletPlan 10 "H" [("t", ""), ("t", ""), ("t", "")]).2 = 20 ∧
    ¬ ((appendBulletPlan 10 "H" [("t", ""), ("t", ""), ("t", "")]).2 =
      10 + ("H" : String).length
        + (("t" : String).length + (joinedLines "").length + 1)
        + (("t" : String).length + (joinedLines "").length + 1)
        + (("t" : String).length + (joinedLines "").length + 1)) := by
  constructor
  · decide
  · decide

lemma pyStrip_extractTag (tag s : String) :
    pyStrip (extractTag tag s) = extractTag tag s := by
  unfold extractTag
  cases reSearchLazy (openTagOf tag) (closeTagOf tag) s with
  | none => rfl
  | some g => exact pyStrip_idem g

/-- C10: for every input string the parser returns a record with exactly the
three slots `completed`, `inprogress`, `new` (it is a total function into
`ParsedInfo`), and each slot value is a fixed point of Python `strip()`, i.e.
carries no leading or trailing whitespace. -/
theorem C10_parser_totality (response : String) :
    parse_structured_response response =
      { completed := extractTag ("completed") response,
        inprogress := extractTag ("inprogress") response,
        new := extractTag ("new") response } ∧
    pyStrip (parse_structured_response response).completed
      = (parse_structured_response response).completed ∧
    pyStrip (parse_structured_response response).inprogress
      = (parse_structured_response response).inprogress ∧
    pyStrip (parse_structured_response response).new
      = (parse_structured_response response).new :=
  ⟨rfl, pyStrip_extractTag ("completed") response,
    pyStrip_extractTag ("inprogress") response,
    pyStrip_extractTag ("new") response⟩

lemma except_error_bind {ε α β : Type} (e : ε) (g : α → Except ε β) :
    (Except.error e >>= g) = Except.error e := rfl

lemma except_ok_bind {ε α β : Type} (a : α) (g : α → Except ε β) :
    (Except.ok a >>= g) = g a := rfl

/-- A read-back row on which the cell-index expression of
src/script.py:352-357 raises: no cell at index 0, no content element, no
`"paragraph"` key, or no paragraph element.  A row with *extra* cells is not
malformed in this sense — the expression only reads `tableCells[0]`. -/
def rowMalformed (row : TableRow) : Bool :=
  match row.tableCells with
  | [] => true
  | cell :: _ =>
    match cell.content with
    | [] => true
    | ce :: _ =>
      match ce.paragraph with
      | none => true
      | some p => p.elements.isEmpty

lemma rowCellIndex_error_of_malformed (r : TableRow) (hm : rowMalformed r = true) :
    ∃ e, rowCellIndex r = Except.error e := by
  obtain ⟨cells⟩ := r
  cases cells with
  | nil => exact ⟨"IndexError: tableCells[0]", rfl⟩
  | cons c cs =>
    obtain ⟨content⟩ := c
    cases content with
    | nil => exact ⟨"IndexError: content[0]", rfl⟩
    | cons ce ces =>
      obtain ⟨para⟩ := ce
      cases para with
      | none => exact ⟨"KeyError: paragraph", rfl⟩
      | some p =>
        obtain ⟨els⟩ := p
        cases els with
        | nil => exact ⟨"IndexError: elements[0]", rfl⟩
        | cons e es => simp [rowMalformed] at hm

lemma mapM_rowCellIndex_error :
    ∀ (l : List TableRow), (∃ r ∈ l, rowMalformed r = true) →
      ∃ e, l.mapM rowCellIndex = Except.error e := by
  intro l
  induction l with
  | nil => rintro ⟨r, hr, _⟩; simp at hr
  | cons a l ih =>
    rintro ⟨r, hr, hm⟩
    rw [List.mapM_cons]
    rcases List.mem_cons.mp hr with heq | hr'
    · obtain ⟨e, he⟩ := rowCellIndex_error_of_malformed a (heq ▸ hm)
      exact ⟨e, by rw [he, except_error_bind]⟩
    · cases hfa : rowCellIndex a with
      | error e => exact ⟨e, rfl⟩
      | ok b =>
        obtain ⟨e, he⟩ := ih ⟨r, hr', hm⟩
        refine ⟨e, ?_⟩
        rw [except_ok_bind, he, except_error_bind]

lemma mapM_rowCellIndex_ok_length :
    ∀ (l : List TableRow) (bs : List Nat),
      l.mapM rowCellIndex = Except.ok bs → bs.length = l.length := by
  intro l
  induction l with
  | nil =>
    intro bs h
    rw [List.mapM_nil] at h
    cases h
    rfl
  | cons a l ih =>
    intro bs h
    rw [List.mapM_cons] at h
    cases hfa : rowCellIndex a with
    | error e => rw [hfa, except_error_bind] at h; cases h
    | ok b =>
      rw [hfa, except_ok_bind] at h
      cases hml : l.mapM rowCellIndex with
      | error e => rw [hml, except_error_bind] at h; cases h
      | ok bs' =>
        rw [hml, except_ok_bind] at h
        cases h
        simp [ih bs' hml]

/-- C5 (amended): the table planner raises and submits no content batch when
the read-back has no table at all, or when some row has *no* cell or its first
cell lacks the expected content structure; and any content batch it does
submit is a whole batch with one insertion per read-back row.  (A row with
more than one cell is silently accepted using its first cell — see the
counterexample — so "not exactly one cell" is fatal only in the zero-cell
direction.) -/
theorem C5_layout_mismatch :
    (∀ (content : List BodyElement) (rowTexts : List String),
      content.filterMap (fun e => e.table) = [] →
      tablePhase2 content rowTexts
        = Except.error "ValueError: Table not found in document.") ∧
    (∀ (content : List BodyElement) (rowTexts : List String) (t : DocTable),
      lastTable content = Except.ok t →
      (∃ r ∈ t.tableRows, rowMalformed r = true) →
      ∃ e, tablePhase2 content rowTexts = Except.error e) ∧
    (∀ (content : List BodyElement) (rowTexts : List String) (ops : List DocRequest),
      tablePhase2 content rowTexts = Except.ok ops →
      ∃ t idxs, lastTable content = Except.ok t ∧ cellIndexes t = Except.ok idxs ∧
        idxs.length = t.tableRows.length ∧
        ops = phase2TextRequests rowTexts idxs) := by
  refine ⟨?_, ?_, ?_⟩
  · intro content rowTexts h
    have hlt : lastTable content = Except.error "ValueError: Table not found in document." := by
      unfold lastTable
      rw [h]
      rfl
    unfold tablePhase2
    rw [hlt, except_error_bind]
  · intro content rowTexts t hlt hbad
    obtain ⟨e, he⟩ := mapM_rowCellIndex_error t.tableRows hbad
    refine ⟨e, ?_⟩
    unfold tablePhase2
    rw [hlt, except_ok_bind]
    show (cellIndexes t >>= _) = _
    unfold cellIndexes
    rw [he, except_error_bind]
  · intro content rowTexts ops h
    unfold tablePhase2 at h
    cases hlt : lastTable content with
    | error e => rw [hlt, except_error_bind] at h; cases h
    | ok t =>
      rw [hlt, except_ok_bind] at h
      cases hci : cellIndexes t with
      | error e =>
        rw [show (cellIndexes t >>= fun idxs =>
          pure (phase2TextRequests rowTexts idxs)) = Except.error e from by
            rw [hci, except_error_bind]] at h
        cases h
      | ok idxs =>
        refine ⟨t, idxs, rfl, hci, mapM_rowCellIndex_ok_length t.tableRows idxs hci, ?_⟩
        rw [hci, except_ok_bind] at h
        cases h
        rfl

/-- Counterexample to C5 as stated: a read-back whose second row has *two*
cells (so "a row without exactly one cell") does not raise — the planner
silently uses the first cell of each row and submits a full content batch. -/
theorem C5_counterexample :
    tablePhase2
      [{ table := some { tableRows :=
        [{ tableCells :=
            [{ content := [{ paragraph := some { elements := [{ startIndex := 50 }] } }] }] },
         { tableCells :=
            [{ content := [{ paragraph := some { elements := [{ startIndex := 80 }] } }] },
             { content := [{ paragraph := some { elements := [{ startIndex := 99 }] } }] }] },
         { tableCells :=
            [{ content := [{ paragraph := some { elements := [{ startIndex := 130 }] } }] }] },
         { tableCells :=
            [{ content := [{ paragraph := some { elements := [{ startIndex := 131 }] } }] }] }] } }]
      ["a", "b", "c", "d"]
    = Except.ok
        [DocRequest.insertText 131 "d", DocRequest.insertText 130 "c",
         DocRequest.insertText 80 "b", DocRequest.insertText 50 "a"] := rfl

/-- Witness for C5 (amended): the no-table case and the zero-cell-row case
both produce an error and hence no content batch. -/
theorem C5_layout_mismatch_witness :
    tablePhase2 [] ["a", "b", "c", "d"]
      = Except.error "ValueError: Table not found in document." ∧
    (∃ e, tablePhase2 [{ table := some { tableRows := [{ tableCells := [] }] } }] ["a"]
      = Except.error e) :=
  ⟨C5_layout_mismatch.1 [] ["a", "b", "c", "d"] rfl,
   C5_layout_mismatch.2.1 [{ table := some { tableRows := [{ tableCells := [] }] } }]
     ["a"] { tableRows := [{ tableCells := [] }] } rfl
     ⟨{ tableCells := [] }, List.mem_singleton.mpr rfl, rfl⟩⟩

/-- C9: a slot with an empty LineBlock still gets a bullet-text insertion of a
single newline plus the bullet-marking request over that one-character range;
and with all three slots empty the sequential planner still emits its full
twelve-request batch with a non-empty heading, the table planner still builds
all four row texts (titles with zero bullet lines) and, on a well-formed
read-back, submits a whole four-insert content batch without error. -/
theorem C9_empty_bucket_stability :
    (∀ (reqs : List DocRequest) (cursor : Nat) (title data : String),
      bulletLines data = [] →
      sectionStep (reqs, cursor) (title, data) =
        (reqs ++ [DocRequest.insertText cursor (title ++ "\n"),
                  DocRequest.insertText (cursor + (title ++ "\n").length) "\n",
                  DocRequest.createParagraphBullets (cursor + (title ++ "\n").length)
                    (cursor + (title ++ "\n").length + 1)],
         cursor + (title ++ "\n").length + 1)) ∧
    ((append_bullet_summary_to_doc 100
        { completed := "", inprogress := "", new := "" }).1.length = 12 ∧
      date_heading ≠ "") ∧
    table_rows "A" "B" { completed := "", inprogress := "", new := "" } =
      ["Period from A to B", "1. Tasks completed 100%:\n",
       "2. Tasks continue to work on:\n", "3. New tasks started:\n"] ∧
    tablePhase2
      [{ table := some { tableRows :=
        [{ tableCells :=
            [{ content := [{ paragraph := some { elements := [{ startIndex := 50 }] } }] }] },
         { tableCells :=
            [{ content := [{ paragraph := some { elements := [{ startIndex := 80 }] } }] }] },
         { tableCells :=
            [{ content := [{ paragraph := some { elements := [{ startIndex := 130 }] } }] }] },
         { tableCells :=
            [{ content := [{ paragraph := some { elements := [{ startIndex := 131 }] } }] }] }] } }]
      (table_rows "A" "B" { completed := "", inprogress := "", new := "" })
    = Except.ok
        [DocRequest.insertText 131 "3. New tasks started:\n",
         DocRequest.insertText 130 "2. Tasks continue to work on:\n",
         DocRequest.insertText 80 "1. Tasks completed 100%:\n",
         DocRequest.insertText 50 "Period from A to B"] := by
  refine ⟨?_, ⟨by decide, by decide⟩, by decide, by rfl⟩
  intro reqs cursor title data h
  have hb : (String.intercalate "\n" [] ++ "\n" : String) = "\n" := rfl
  have hn1 : ("\n" : String).length = 1 := rfl
  simp only [sectionStep, bulletText, h, hb, hn1]

/-- Witness for C9's empty-LineBlock clause at a concrete slot. -/
theorem C9_empty_bucket_stability_witness :
    sectionStep ([], 100) ("t", "") =
      ([] ++ [DocRequest.insertText 100 ("t" ++ "\n"),
              DocRequest.insertText (100 + ("t" ++ "\n").length) "\n",
              DocRequest.createParagraphBullets (100 + ("t" ++ "\n").length)
                (100 + ("t" ++ "\n").length + 1)],
       100 + ("t" ++ "\n").length + 1) :=
  C9_empty_bucket_stability.1 [] 100 "t" "" (by decide)

/-- C7: tag extraction — for every input of the form
`pre ++ <tag> ++ x ++ </tag> ++ post` in which no earlier `<tag>` occurs
(first-occurrence-wins) and no `</tag>` occurs inside `x` (non-greedy group),
the parser returns `x` trimmed of surrounding whitespace, regardless of the
noise around it; and when `<tag>` does not occur at all the slot is the empty
string rather than an error. -/
theorem C7_tag_extraction :
    (∀ tag pre x post : String,
      (∀ k, k < pre.length →
        occursAt (openTagOf tag) (pre ++ openTagOf tag ++ x ++ closeTagOf tag ++ post) k
          = false) →
      (∀ k, k < pre.length + (openTagOf tag).length + x.length →
          pre.length + (openTagOf tag).length ≤ k →
        occursAt (closeTagOf tag) (pre ++ openTagOf tag ++ x ++ closeTagOf tag ++ post) k
          = false) →
      extractTag tag (pre ++ openTagOf tag ++ x ++ closeTagOf tag ++ post) = pyStrip x) ∧
    (∀ tag s : String,
      (∀ i, i < s.length + 1 → occursAt (openTagOf tag) s i = false) →
      extractTag tag s = "") := by
  constructor
  · intro tag pre x post h1 h2
    set o := openTagOf tag with ho
    set c := closeTagOf tag with hc
    set s := pre ++ o ++ x ++ c ++ post with hs
    have hsd : s.data = pre.data ++ (o.data ++ (x.data ++ (c.data ++ post.data))) := by
      simp [hs]
    have hslen : s.length = pre.length + (o.length + (x.length + (c.length + post.length))) := by
      show s.data.length = _
      rw [hsd]
      simp [List.length_append]
    have key1 : s.data.drop pre.length = o.data ++ (x.data ++ (c.data ++ post.data)) := by
      rw [hsd]
      exact List.drop_left' rfl
    have key3 : s.data.drop (pre.length + o.length) = x.data ++ (c.data ++ post.data) := by
      rw [hsd, ← List.append_assoc]
      refine List.drop_left' ?_
      simp [List.length_append]
    have key2 : s.data.drop (pre.length + o.length + x.length) = c.data ++ post.data := by
      rw [hsd, ← List.append_assoc, ← List.append_assoc]
      refine List.drop_left' ?_
      simp [List.length_append]
      omega
    have hoccO : occursAt o s pre.length = true := by
      unfold occursAt
      rw [key1]
      simp
    have hoccC : occursAt c s (pre.length + o.length + x.length) = true := by
      unfold occursAt
      rw [key2]
      simp
    have hfind : findFrom c s (pre.length + o.length)
        = some (pre.length + o.length + x.length) := by
      unfold findFrom
      refine scanFirstSome_eq _ (s.length + 1 - (pre.length + o.length))
        (pre.length + o.length) (pre.length + o.length + x.length) _
        (by omega) (by omega) ?_ ?_
      · intro k hk1 hk2
        simp [h2 k hk2 hk1]
      · simp [hoccC]
    have hslice : sliceStr s (pre.length + o.length) (pre.length + o.length + x.length)
        = x := by
      unfold sliceStr
      rw [key3, show pre.length + o.length + x.length - (pre.length + o.length)
        = x.length from by omega]
      have htake : List.take x.length (x.data ++ (c.data ++ post.data)) = x.data :=
        List.take_left' rfl
      rw [htake]
    have hscan : reSearchLazy o c s
        = some (sliceStr s (pre.length + o.length) (pre.length + o.length + x.length)) := by
      unfold reSearchLazy
      refine scanFirstSome_eq _ (s.length + 1) 0 pre.length _
        (Nat.zero_le _) (by omega) ?_ ?_
      · intro k _ hk2
        simp [h1 k hk2]
      · simp only [hoccO, if_true]
        rw [hfind]
    unfold extractTag
    rw [← ho, ← hc, hscan, hslice]
  · intro tag s h
    have hnone : reSearchLazy (openTagOf tag) (closeTagOf tag) s = none := by
      unfold reSearchLazy
      apply scanFirstSome_none
      intro k hk0 hk
      simp [h k (by omega)]
    unfold extractTag
    rw [hnone]

/-- Witness for C7: a concrete tagged blob with noise and an embedded newline,
and a concrete input with no tag at all. -/
theorem C7_tag_extraction_witness :
    extractTag ("completed")
        ("z" ++ openTagOf ("completed") ++ " a\nb " ++ closeTagOf ("completed") ++ "q")
      = pyStrip (" a\nb ") ∧
    extractTag ("new") ("hello") = "" :=
  ⟨C7_tag_extraction.1 ("completed") ("z") (" a\nb ") ("q") (by decide) (by decide),
   C7_tag_extraction.2 ("new") ("hello") (by decide)⟩

/-- Written from the spec's (amended) wording for the Line Normalizer: strip
characters satisfying `p` from the left edge of a line. -/
def specDropLeading (p : Char → Bool) : List Char → List Char
  | [] => []
  | c :: cs => if p c then specDropLeading p cs else c :: cs

/-- Written from the spec's (amended) wording: strip characters satisfying `p`
from the right edge of a line. -/
def specDropTrailing (p : Char → Bool) : List Char → List Char
  | [] => []
  | c :: cs =>
    let r := specDropTrailing p cs
    if r.isEmpty && p c then [] else c :: r

/-- Written from the spec's wording: a blank line is one made entirely of
whitespace. -/
def specBlank (l : String) : Bool := l.data.all pyIsSpace

/-- Written from the spec's (amended) wording: strip the bullet-marker set
from both edges of the line, then trim whitespace from both edges. -/
def specClean (l : String) : String :=
  String.mk (specDropTrailing pyIsSpace (specDropLeading pyIsSpace
    (specDropTrailing isMarkerChar (specDropLeading isMarkerChar l.data))))

/-- Modelled from the spec, §4.2 amended: split on line boundaries, discard
blank lines, and strip each kept line of the bullet-marker set and whitespace
at both edges. -/
def specNormalize (data : String) : List String :=
  (pySplitlines data).foldr
    (fun l acc => if specBlank l then acc else specClean l :: acc) []

lemma specDropLeading_eq (p : Char → Bool) (l : List Char) :
    specDropLeading p l = List.dropWhile p l := by
  induction l with
  | nil => rfl
  | cons c cs ih => simp [specDropLeading, List.dropWhile_cons, ih]

lemma rdropWhile_cons (p : Char → Bool) (c : Char) (cs : List Char) :
    List.rdropWhile p (c :: cs) =
      if (List.rdropWhile p cs).isEmpty then (if p c then [] else [c])
      else c :: List.rdropWhile p cs := by
  simp only [List.rdropWhile, List.reverse_cons, List.dropWhile_append,
    List.isEmpty_iff, List.reverse_eq_nil_iff]
  by_cases hemp : List.dropWhile p cs.reverse = []
  · rw [if_pos hemp, if_pos hemp]
    by_cases hp : p c = true
    · simp [List.dropWhile_cons, hp]
    · simp [List.dropWhile_cons, hp]
  · rw [if_neg hemp, if_neg hemp, List.reverse_append]
    rfl

lemma specDropTrailing_eq (p : Char → Bool) (l : List Char) :
    specDropTrailing p l = List.rdropWhile p l := by
  induction l with
  | nil => rfl
  | cons c cs ih =>
    rw [rdropWhile_cons]
    show (if (specDropTrailing p cs).isEmpty && p c then []
      else c :: specDropTrailing p cs) = _
    rw [ih]
    by_cases hemp : (List.rdropWhile p cs).isEmpty = true
    · have h0 : List.rdropWhile p cs = [] := List.isEmpty_iff.mp hemp
      by_cases hp : p c = true
      · simp [hemp, hp]
      · simp [hemp, hp, h0]
    · simp [hemp]

lemma all_dropWhile (p : Char → Bool) (l : List Char) :
    (∀ x ∈ List.dropWhile p l, p x = true) ↔ (∀ x ∈ l, p x = true) := by
  induction l with
  | nil => simp
  | cons c cs ih =>
    rw [List.dropWhile_cons]
    by_cases hp : p c = true
    · simp [hp, ih]
    · simp [hp]

lemma stripBoth_eq_empty_iff (p : Char → Bool) (s : String) :
    stripBoth p s = "" ↔ (∀ c ∈ s.data, p c = true) := by
  constructor
  · intro h
    have hd : (stripBoth p s).data = [] := by rw [h]
    rw [data_stripBoth, List.rdropWhile_eq_nil_iff] at hd
    exact (all_dropWhile p s.data).mp hd
  · intro h
    have hd : List.rdropWhile p (List.dropWhile p s.data) = [] :=
      List.rdropWhile_eq_nil_iff.mpr ((all_dropWhile p s.data).mpr h)
    show String.mk (List.rdropWhile p (List.dropWhile p s.data)) = ""
    rw [hd]

lemma lineKept_iff (l : String) : lineKept l = true ↔ ¬ specBlank l = true := by
  unfold lineKept specBlank pyStrip
  rw [bne_iff_ne, ne_eq, stripBoth_eq_empty_iff, List.all_eq_true]

lemma specClean_eq (l : String) : specClean l = cleanLine l := by
  simp only [specClean, cleanLine, specDropLeading_eq, specDropTrailing_eq,
    pyStrip, stripBoth]

/-- C6 (amended): the line normalizer agrees everywhere with the spec-worded
normalizer that splits on line boundaries, discards whitespace-only lines and
strips the bullet-marker set, then whitespace, from *both* edges of each kept
line; and empty input yields the empty LineBlock. -/
theorem C6_line_normalizer :
    (∀ data, bulletLines data = specNormalize data) ∧ bulletLines "" = [] := by
  constructor
  · intro data
    unfold bulletLines specNormalize
    induction pySplitlines data with
    | nil => rfl
    | cons l ls ih =>
      by_cases hb : specBlank l = true
      · have hk : lineKept l = false := by
          cases h : lineKept l
          · rfl
          · exact absurd hb ((lineKept_iff l).mp h)
        simp [List.filter_cons, hk, hb, ih]
      · have hk : lineKept l = true := (lineKept_iff l).mpr hb
        simp [List.filter_cons, hk, hb, ih, specClean_eq]
  · rfl

/-- Counterexample to C6 as stated: the strip is applied to *both* edges, so a
marker character at the right edge of a line is removed, not preserved — the
raw line `"a-"` normalizes to `"a"`, not `"a-"`. -/
theorem C6_counterexample :
    bulletLines ("a-") ≠ ["a-"] ∧ bulletLines ("a-") = ["a"] := by
  constructor
  · decide
  · decide


lemma string_mk_data (s : String) : String.mk s.data = s := rfl

lemma go_nil (cur : List Char) :
    pySplitlinesGo [] cur = if cur.isEmpty then [] else [String.mk cur.reverse] := rfl

lemma go_single_break (a : Char) (cur : List Char) (h : pyIsLineBreak a = true) :
    pySplitlinesGo [a] cur = [String.mk cur.reverse] := by
  show (if pyIsLineBreak a then String.mk cur.reverse :: pySplitlinesGo [] []
    else pySplitlinesGo [] (a :: cur)) = _
  rw [if_pos h]
  rfl

lemma go_pair_break (a r2 : Char) (rest2 cur : List Char) (h : pyIsLineBreak a = true)
    (hp : (a == '\r' && r2 == '\n') = true) :
    pySplitlinesGo (a :: r2 :: rest2) cur
      = String.mk cur.reverse :: pySplitlinesGo rest2 [] := by
  show (if pyIsLineBreak a then String.mk cur.reverse ::
      (if a == '\r' && r2 == '\n' then pySplitlinesGo rest2 []
       else pySplitlinesGo (r2 :: rest2) [])
    else pySplitlinesGo (r2 :: rest2) (a :: cur)) = _
  rw [if_pos h, if_pos hp]

lemma go_pair_break_no_crlf (a r2 : Char) (rest2 cur : List Char) (h : pyIsLineBreak a = true)
    (hp : (a == '\r' && r2 == '\n') = false) :
    pySplitlinesGo (a :: r2 :: rest2) cur
      = String.mk cur.reverse :: pySplitlinesGo (r2 :: rest2) [] := by
  show (if pyIsLineBreak a then String.mk cur.reverse ::
      (if a == '\r' && r2 == '\n' then pySplitlinesGo rest2 []
       else pySplitlinesGo (r2 :: rest2) [])
    else pySplitlinesGo (r2 :: rest2) (a :: cur)) = _
  rw [if_pos h, if_neg (by simp [hp])]

lemma go_cons_nobreak (a : Char) (rest cur : List Char) (h : pyIsLineBreak a = false) :
    pySplitlinesGo (a :: rest) cur = pySplitlinesGo rest (a :: cur) := by
  cases rest with
  | nil =>
    show (if pyIsLineBreak a then String.mk cur.reverse :: pySplitlinesGo [] []
      else pySplitlinesGo [] (a :: cur)) = _
    rw [if_neg (by simp [h])]
  | cons r2 rest2 =>
    show (if pyIsLineBreak a then String.mk cur.reverse ::
        (if a == '\r' && r2 == '\n' then pySplitlinesGo rest2 []
         else pySplitlinesGo (r2 :: rest2) [])
      else pySplitlinesGo (r2 :: rest2) (a :: cur)) = _
    rw [if_neg (by simp [h])]

lemma go_newline (rest cur : List Char) :
    pySplitlinesGo ('\n' :: rest) cur
      = String.mk cur.reverse :: pySplitlinesGo rest [] := by
  cases rest with
  | nil => rw [go_single_break '\n' cur (by decide)]; rfl
  | cons r2 rest2 =>
    refine go_pair_break_no_crlf '\n' r2 rest2 cur (by decide) ?_
    rw [show ('\n' == '\r') = false from by decide]
    simp

lemma pySplitlinesGo_nil_no_break (cur : List Char)
    (hcur : ∀ c ∈ cur, pyIsLineBreak c = false) :
    ∀ l ∈ pySplitlinesGo [] cur, ∀ c ∈ l.data, pyIsLineBreak c = false := by
  intro l hl c hc
  rw [go_nil] at hl
  by_cases hemp : cur.isEmpty = true
  · rw [if_pos hemp] at hl
    exact absurd hl (List.not_mem_nil l)
  · rw [if_neg hemp] at hl
    rcases List.mem_singleton.mp hl with rfl
    exact hcur c (List.mem_reverse.mp hc)

lemma pySplitlinesGo_no_break :
    ∀ (n : Nat) (cs cur : List Char), cs.length ≤ n →
      (∀ c ∈ cur, pyIsLineBreak c = false) →
      ∀ l ∈ pySplitlinesGo cs cur, ∀ c ∈ l.data, pyIsLineBreak c = false := by
  intro n
  induction n with
  | zero =>
    intro cs cur hlen hcur
    have hnil : cs = [] := List.length_eq_zero.mp (Nat.le_zero.mp hlen)
    subst hnil
    exact pySplitlinesGo_nil_no_break cur hcur
  | succ n ih =>
    intro cs cur hlen hcur
    cases cs with
    | nil => exact pySplitlinesGo_nil_no_break cur hcur
    | cons a rest =>
      intro l hl c hc
      by_cases hbr : pyIsLineBreak a = true
      · cases rest with
        | nil =>
          rw [go_single_break a cur hbr] at hl
          rcases List.mem_singleton.mp hl with rfl
          exact hcur c (List.mem_reverse.mp hc)
        | cons r2 rest2 =>
          by_cases hp : (a == '\r' && r2 == '\n') = true
          · rw [go_pair_break a r2 rest2 cur hbr hp] at hl
            rcases List.mem_cons.mp hl with rfl | hl'
            · exact hcur c (List.mem_reverse.mp hc)
            · refine ih rest2 [] ?_ (by simp) l hl' c hc
              simp only [List.length_cons] at hlen
              omega
          · rw [go_pair_break_no_crlf a r2 rest2 cur hbr
              (Bool.eq_false_iff.mpr hp)] at hl
            rcases List.mem_cons.mp hl with rfl | hl'
            · exact hcur c (List.mem_reverse.mp hc)
            · refine ih (r2 :: rest2) [] ?_ (by simp) l hl' c hc
              simp only [List.length_cons] at hlen ⊢
              omega
      · have hbf : pyIsLineBreak a = false := Bool.eq_false_iff.mpr hbr
        rw [go_cons_nobreak a rest cur hbf] at hl
        refine ih rest (a :: cur) ?_ ?_ l hl c hc
        · simp only [List.length_cons] at hlen
          omega
        · intro d hd
          rcases List.mem_cons.mp hd with rfl | hd'
          · exact hbf
          · exact hcur d hd'

lemma pySplitlines_no_break (s : String) :
    ∀ l ∈ pySplitlines s, ∀ c ∈ l.data, pyIsLineBreak c = false :=
  pySplitlinesGo_no_break s.data.length s.data [] (Nat.le_refl _) (by simp)

lemma go_append :
    ∀ (l : List Char), (∀ c ∈ l, pyIsLineBreak c = false) →
      ∀ (rest cur : List Char),
        pySplitlinesGo (l ++ rest) cur = pySplitlinesGo rest (l.reverse ++ cur) := by
  intro l
  induction l with
  | nil => intro _ rest cur; simp
  | cons a l' ih =>
    intro hl rest cur
    have ha : pyIsLineBreak a = false := hl a (List.mem_cons_self a l')
    rw [List.cons_append, go_cons_nobreak a (l' ++ rest) cur ha,
      ih (fun c hc => hl c (List.mem_cons_of_mem a hc)) rest (a :: cur)]
    congr 1
    simp

lemma pySplitlines_intercalate :
    ∀ (ls : List String),
      (∀ l ∈ ls, l ≠ "" ∧ ∀ c ∈ l.data, pyIsLineBreak c = false) →
      pySplitlines (String.intercalate "\n" ls) = ls := by
  intro ls
  induction ls with
  | nil => intro _; rfl
  | cons l ls' ih =>
    intro h
    obtain ⟨hne, hnb⟩ := h l (List.mem_cons_self l ls')
    have hd : l.data ≠ [] := fun h0 => hne (String.ext h0)
    cases ls' with
    | nil =>
      rw [intercalate_single]
      unfold pySplitlines
      rw [show l.data = l.data ++ [] from (List.append_nil _).symm,
        go_append l.data hnb [] [], go_nil, List.append_nil]
      rw [if_neg (by simp [List.isEmpty_iff, hd])]
      simp [string_mk_data]
    | cons m ms =>
      rw [intercalate_cons_cons]
      unfold pySplitlines
      have hnl : ("\n" : String).data = ['\n'] := rfl
      have hdata : (l ++ "\n" ++ String.intercalate "\n" (m :: ms)).data
          = l.data ++ ('\n' :: (String.intercalate "\n" (m :: ms)).data) := by
        simp [hnl]
      rw [hdata, go_append l.data hnb, go_newline, List.append_nil,
        List.reverse_reverse, string_mk_data]
      exact congrArg (l :: ·) (ih (fun x hx => h x (List.mem_cons_of_mem _ hx)))

lemma stripBoth_eq_self (p : Char → Bool) (l : String)
    (h1 : ∀ c, l.data.head? = some c → p c = false)
    (h2 : ∀ c, l.data.getLast? = some c → p c = false) :
    stripBoth p l = l := by
  have hdrop : List.dropWhile p l.data = l.data := by
    cases hdd : l.data with
    | nil => rfl
    | cons a as =>
      rw [List.dropWhile_cons, if_neg]
      have := h1 a (by rw [hdd]; rfl)
      simp [this]
  have hrdrop : List.rdropWhile p l.data = l.data := by
    rw [List.rdropWhile_eq_self_iff]
    intro hl
    have := h2 (l.data.getLast hl) (List.getLast?_eq_getLast _ hl)
    simp [this]
  show String.mk (List.rdropWhile p (List.dropWhile p l.data)) = l
  rw [hdrop, hrdrop, string_mk_data]

/-- The edge condition of C8 (amended): an edge character that is neither a
bullet-marker character nor whitespace is untouched by the per-line clean. -/
def edgeOkChar (c : Char) : Bool := !(isMarkerChar c || pyIsSpace c)

lemma option_all_some {q : Char → Bool} {o : Option Char} (h : Option.all q o = true) :
    ∀ c, o = some c → q c = true := by
  intro c hc
  rw [hc] at h
  exact h

lemma cleanLine_eq_self (l : String)
    (h1 : Option.all edgeOkChar l.data.head? = true)
    (h2 : Option.all edgeOkChar l.data.getLast? = true) :
    cleanLine l = l := by
  have hm1 : ∀ c, l.data.head? = some c → isMarkerChar c = false := by
    intro c hc
    have := option_all_some h1 c hc
    simp [edgeOkChar] at this
    exact this.1
  have hm2 : ∀ c, l.data.getLast? = some c → isMarkerChar c = false := by
    intro c hc
    have := option_all_some h2 c hc
    simp [edgeOkChar] at this
    exact this.1
  have hs1 : ∀ c, l.data.head? = some c → pyIsSpace c = false := by
    intro c hc
    have := option_all_some h1 c hc
    simp [edgeOkChar] at this
    exact this.2
  have hs2 : ∀ c, l.data.getLast? = some c → pyIsSpace c = false := by
    intro c hc
    have := option_all_some h2 c hc
    simp [edgeOkChar] at this
    exact this.2
  unfold cleanLine
  rw [stripBoth_eq_self isMarkerChar l hm1 hm2]
  exact stripBoth_eq_self pyIsSpace l hs1 hs2

lemma lineKept_of_good (l : String) (hne : l ≠ "")
    (h1 : Option.all edgeOkChar l.data.head? = true) :
    lineKept l = true := by
  unfold lineKept
  rw [bne_iff_ne]
  intro h0
  have hall := (stripBoth_eq_empty_iff pyIsSpace l).mp h0
  have hdd : l.data ≠ [] := fun hh => hne (String.ext hh)
  obtain ⟨a, as, ha⟩ := List.exists_cons_of_ne_nil hdd
  have hh : l.data.head? = some a := by rw [ha]; rfl
  have := option_all_some h1 a hh
  simp [edgeOkChar] at this
  have hsp := hall a (by rw [ha]; exact List.mem_cons_self a as)
  rw [this.2] at hsp
  cases hsp

lemma mem_of_mem_cleanLine (l : String) (c : Char) (hc : c ∈ (cleanLine l).data) :
    c ∈ l.data := by
  have step : ∀ (p : Char → Bool) (x : List Char),
      c ∈ List.rdropWhile p (List.dropWhile p x) → c ∈ x := by
    intro p x hd
    have h1 : c ∈ List.dropWhile p x := (List.rdropWhile_prefix p _).subset hd
    exact (List.dropWhile_sublist p).subset h1
  exact step isMarkerChar l.data (step pyIsSpace (stripBoth isMarkerChar l).data hc)

/-- C8 (amended): re-running the normalizer on the newline-joined LineBlock
reproduces it exactly, provided each produced line is non-empty and its first
and last characters are neither bullet-marker characters nor whitespace.
(Without that proviso a cleaned line can be empty or re-expose a marker at an
edge, and a second pass changes it — see the counterexample.) -/
theorem C8_normalize_idempotent (raw : String)
    (h : ∀ l ∈ bulletLines raw, l ≠ "" ∧
      Option.all edgeOkChar l.data.head? = true ∧
      Option.all edgeOkChar l.data.getLast? = true) :
    bulletLines (String.intercalate "\n" (bulletLines raw)) = bulletLines raw := by
  have hnb : ∀ l ∈ bulletLines raw, ∀ c ∈ l.data, pyIsLineBreak c = false := by
    intro l hl c hc
    unfold bulletLines at hl
    obtain ⟨l0, hl0, rfl⟩ := List.mem_map.mp hl
    have hl0' : l0 ∈ pySplitlines raw := List.mem_of_mem_filter hl0
    exact pySplitlines_no_break raw l0 hl0' c (mem_of_mem_cleanLine l0 c hc)
  have hsplit : pySplitlines (String.intercalate "\n" (bulletLines raw))
      = bulletLines raw :=
    pySplitlines_intercalate (bulletLines raw) (fun l hl => ⟨(h l hl).1, hnb l hl⟩)
  show ((pySplitlines (String.intercalate "\n" (bulletLines raw))).filter
    lineKept).map cleanLine = bulletLines raw
  rw [hsplit,
    List.filter_eq_self.mpr (fun l hl => lineKept_of_good l (h l hl).1 (h l hl).2.1)]
  have hmap : (bulletLines raw).map cleanLine = (bulletLines raw).map id :=
    List.map_congr_left (fun l hl => cleanLine_eq_self l (h l hl).2.1 (h l hl).2.2)
  rw [hmap, List.map_id]

/-- Witness for C8 (amended) on a two-line raw slot text. -/
theorem C8_normalize_idempotent_witness :
    bulletLines (String.intercalate "\n" (bulletLines ("- a\n- b")))
      = bulletLines ("- a\n- b") :=
  C8_normalize_idempotent ("- a\n- b") (by decide)

/-- Counterexample to C8 as stated: the raw text `"-"` normalizes to a
LineBlock containing one empty string, and re-running the normalizer on its
joined text yields the empty LineBlock instead — idempotence fails. -/
theorem C8_counterexample :
    bulletLines ("-") = [""] ∧
    bulletLines (String.intercalate "\n" (bulletLines ("-"))) = [] ∧
    ([""] : List String) ≠ [] := by
  refine ⟨by decide, by decide, by decide⟩
